import Mathlib

/-!
# Verification of the authenticated API-access layer (`api` package)

A shallow embedding of the Go `api` package of this repository (the portion of
`src/internal/config/config_setup.go` holding `AddHeader`, `AddHeaderFunc`,
`CheckScopes`, `Client.HasScopes`, `Client.GraphQL`, `Client.REST`,
`handleResponse` and `handleHTTPError`), together with theorems settling the
frozen claims about it.

Conventions of the embedding:
* An HTTP header lookup `res.Header.Get(k)` is modelled by an
  `Option String` field: `none` means the header is absent (`Get` returns `""`),
  `some v` that it is present with first value `v`.
* `ioutil.ReadAll` is modelled by `Except String String`: `Except.error e`
  is a read failure whose error text is `e`, `Except.ok b` the body `b`.
* `json.Unmarshal` is a library call, modelled by abstract decode functions
  passed as parameters: `none` means the unmarshal returned an error, `some x`
  that it succeeded producing `x`.  For the error-body decode the produced
  value is the `message` field (`""` when the field is absent, matching the
  Go zero value); for the GraphQL envelope it is a `GraphQLEnvelope`.
* The Go `strings` functions (`EqualFold`, `TrimSpace`, `Split`,
  `HasPrefix`/`TrimPrefix`, `HasSuffix`) are modelled, for the ASCII data in
  play, by executable functions over the character list of a `String`.
* `req.URL.Hostname()` is modelled, for the `https://` URLs this client
  builds from a plain host (no `/`, `:`, `@`, `?`, `#`), by dropping the
  8-character scheme and taking characters up to the first `/`.
-/

namespace GhApi

/-! ## String primitives

Executable models of the Go `strings` library functions the package uses,
written over the character list of a `String` so that they evaluate inside
the kernel. -/

/-- The whitespace recognized by `strings.TrimSpace` on ASCII input. -/
def isGoSpace (c : Char) : Bool :=
  c == ' ' || c == '\t' || c == '\n' || c == '\r'
    || c == Char.ofNat 11 || c == Char.ofNat 12

/-- Model of `strings.TrimSpace` (ASCII): drop leading and trailing whitespace. -/
def trimStr (s : String) : String :=
  String.mk (((s.data.dropWhile isGoSpace).reverse.dropWhile isGoSpace).reverse)

/-- Model of `strings.Split(s, ",")`: split on every comma; the empty string yields
`[""]`. -/
def splitCommaAux : List Char → List Char → List String
  | [], acc => [String.mk acc.reverse]
  | c :: rest, acc =>
      if c == ',' then String.mk acc.reverse :: splitCommaAux rest []
      else splitCommaAux rest (c :: acc)

/-- Model of `strings.Split(s, ",")`. -/
def splitComma (s : String) : List String := splitCommaAux s.data []

/-- ASCII case folding of one character (`A`–`Z` to lower case). -/
def foldChar (c : Char) : Char :=
  if 'A' ≤ c ∧ c ≤ 'Z' then Char.ofNat (c.toNat + 32) else c

/-- Model of `strings.EqualFold` for the ASCII header names used here. -/
def eqFold (a b : String) : Bool :=
  a.data.map foldChar == b.data.map foldChar

/-- Model of `strings.HasSuffix`. -/
def hasSuffix (s suff : String) : Bool :=
  suff.data.isSuffixOf s.data

/-- One granted/requested OAuth scope error record, from `GraphQLError`
(fields `Type`, `Path`, `Message`). -/
structure GraphQLError where
  type : String
  path : List String
  message : String
deriving Repr, DecidableEq

/-- The `GraphQLErrorResponse` type wraps the ordered error list of one response. -/
structure GraphQLErrorResponse where
  errors : List GraphQLError
deriving Repr, DecidableEq

/-- Model of `func (gr GraphQLErrorResponse) Error() string`: newline-join the
messages in order and put the `GraphQL error: ` marker in front. -/
def GraphQLErrorResponse.errorString (gr : GraphQLErrorResponse) : String :=
  "GraphQL error: " ++ String.intercalate "\n" (gr.errors.map (·.message))

/-- The `HTTPError` type (fields `StatusCode`, `RequestURL`, `Message`); the URL is
kept as its text. -/
structure HTTPError where
  statusCode : Nat
  requestURL : String
  message : String
deriving Repr, DecidableEq

/-- The observable part of an `*http.Response` used by the error paths:
status, request URL, and the result of `ioutil.ReadAll(resp.Body)`. -/
structure HTTPResponse where
  statusCode : Nat
  requestURL : String
  bodyRead : Except String String
deriving Repr

/-- Model of `handleHTTPError`: build an `HTTPError` from a response.  When the body
read fails the error text becomes the message; otherwise the body is
unmarshalled as `{"message": string}` (`decodeMsg`, `none` = unmarshal error,
in which case the message keeps the zero value `""`). -/
def handleHTTPError (decodeMsg : String → Option String)
    (resp : HTTPResponse) : HTTPError :=
  match resp.bodyRead with
  | .error e =>
      { statusCode := resp.statusCode, requestURL := resp.requestURL,
        message := e }
  | .ok body =>
      { statusCode := resp.statusCode, requestURL := resp.requestURL,
        message := (decodeMsg body).getD "" }

/-- The decoded `graphQLResponse` envelope: `data?` is the payload that
`json.Unmarshal` writes through the caller-supplied `Data` pointer (`none`
when the JSON has no usable `data` field, leaving the target untouched),
`errors` the decoded error list. -/
structure GraphQLEnvelope where
  data? : Option String
  errors : List GraphQLError
deriving Repr

/-- Errors a REST/GraphQL call can return. -/
inductive ClientError where
  | httpError (e : HTTPError)
  | graphQLErrors (e : GraphQLErrorResponse)
  | readError (e : String)
  | decodeError
deriving Repr, DecidableEq

/-- Model of `handleResponse(resp, data)`: non-2xx goes to `handleHTTPError`; otherwise
read the body, unmarshal the envelope into `graphQLResponse{Data: data}`
(which writes the decoded `data` field through to the caller's target
*before* any error check), and fail with `GraphQLErrorResponse` when the
error list is non-empty.  The state of the caller's output target is passed
and returned explicitly (`out`). -/
def handleResponse (decodeEnv : String → Option GraphQLEnvelope)
    (decodeMsg : String → Option String)
    (resp : HTTPResponse) (out : Option String) :
    Option String × Option ClientError :=
  if 200 ≤ resp.statusCode ∧ resp.statusCode < 300 then
    match resp.bodyRead with
    | .error e => (out, some (.readError e))
    | .ok body =>
        match decodeEnv body with
        | none => (out, some .decodeError)
        | some env =>
            let out' := match env.data? with
              | none => out
              | some d => some d
            if env.errors.length > 0 then
              (out', some (.graphQLErrors ⟨env.errors⟩))
            else
              (out', none)
  else (out, some (.httpError (handleHTTPError decodeMsg resp)))

/-- Model of `Client.REST`: non-2xx fails via `handleHTTPError`; 204 returns with the
target untouched; other 2xx reads the body and unmarshals the whole of it
into the target (`decodeBody`, `none` = unmarshal error). -/
def REST (decodeBody : String → Option String)
    (decodeMsg : String → Option String)
    (resp : HTTPResponse) (out : Option String) :
    Option String × Option ClientError :=
  if 200 ≤ resp.statusCode ∧ resp.statusCode < 300 then
    if resp.statusCode = 204 then
      (out, none)
    else
      match resp.bodyRead with
      | .error e => (out, some (.readError e))
      | .ok body =>
          match decodeBody body with
          | none => (out, some .decodeError)
          | some v => (some v, none)
  else (out, some (.httpError (handleHTTPError decodeMsg resp)))

/-! ## Scope enforcement (`CheckScopes`) and `HasScopes` -/

/-- The candidate scopes satisfying a wanted scope: the scope itself and, when
it starts with `read:`, its `admin:` analog (`strings.TrimPrefix` drops the 5
characters of `read:`). -/
def wantedCandidates (wantedScope : String) : List String :=
  if "read:".data.isPrefixOf wantedScope.data then
    [wantedScope, "admin:" ++ wantedScope.drop 5]
  else
    [wantedScope]

/-- The inner check of `CheckScopes`: split the granted-scopes header on
commas and look for a token whose trimmed form equals one of the candidates
(the Go double loop with `break outer`). -/
def scopesSatisfy (wantedScope : String) (scopesHeader : String) : Bool :=
  (splitComma scopesHeader).any fun s =>
    (wantedCandidates wantedScope).any fun w => w == trimStr s

/-- What one round trip through the wrapped transport yields, as seen by the
`CheckScopes` decorator: whether the inner `RoundTrip` errored, the status,
and the two headers it reads (`X-Oauth-Client-Id`, `X-Oauth-Scopes`). -/
structure RoundTripOutcome where
  isErr : Bool
  status : Nat
  appID : Option String
  scopes : Option String
deriving Repr

/-- The outcome of one pass through the `CheckScopes` decorator body. -/
structure StepResult where
  /-- Holds `some a` when the callback was invoked with app identifier `a`. -/
  cbArg : Option String
  /-- the value of `issuedScopesWarning` afterwards. -/
  flag : Bool
  /-- whether the callback's error was returned from the round trip. -/
  cbErrReturned : Bool
deriving Repr, DecidableEq

/-- One pass through the decorator built by `CheckScopes(wantedScope, cb)`,
with `flag` the current value of the global `issuedScopesWarning` and `cbErr`
whether the callback would return an error if invoked.  Mirrors the source:
errored/over-299/already-warned responses pass through, so do responses
without the app-id header and satisfied ones; otherwise the callback runs,
and only on its success is the global flag set. -/
def checkScopesStep (wantedScope : String) (cbErr : Bool) (flag : Bool)
    (r : RoundTripOutcome) : StepResult :=
  if r.isErr || decide (299 < r.status) || flag then
    ⟨none, flag, false⟩
  else if r.appID.isNone then
    ⟨none, flag, false⟩
  else
    let appID := r.appID.getD ""
    if scopesSatisfy wantedScope (r.scopes.getD "") then
      ⟨none, flag, false⟩
    else if cbErr then
      ⟨some appID, flag, true⟩
    else
      ⟨some appID, true, false⟩

/-- Run a sequence of round trips through one `CheckScopes` decorator,
threading the process-global `issuedScopesWarning` flag and counting callback
invocations; `cbErrAt i` is whether the `i`-th callback invocation fails. -/
def checkScopesRun (wantedScope : String) (cbErrAt : Nat → Bool)
    (rs : List RoundTripOutcome) (flag : Bool) (calls : Nat) : Bool × Nat :=
  match rs with
  | [] => (flag, calls)
  | r :: rest =>
      let st := checkScopesStep wantedScope (cbErrAt calls) flag r
      checkScopesRun wantedScope cbErrAt rest st.flag
        (calls + (if st.cbArg.isSome then 1 else 0))

/-- A response qualifies for the warning: transport success, status at most
299, app-id header present, wanted scope not satisfied. -/
def qualifies (wantedScope : String) (r : RoundTripOutcome) : Bool :=
  !r.isErr && !(decide (299 < r.status)) && r.appID.isSome
    && !(scopesSatisfy wantedScope (r.scopes.getD ""))

/-- The headers of the `GET /user` response that `Client.HasScopes` reads,
next to the fields every response has. -/
structure IdentityResponse extends HTTPResponse where
  appID : Option String
  scopes : Option String

/-- Model of `Client.HasScopes(wantedScopes...)` on a received response: non-200 fails
via `handleHTTPError`; otherwise count, over every granted token `s` and every
wanted scope `w`, the pairs with `w == strings.TrimSpace(s)`, and report
`true` exactly when the count equals the number of wanted scopes, together
with the app identifier. -/
def HasScopes (decodeMsg : String → Option String) (wantedScopes : List String)
    (resp : IdentityResponse) : Except HTTPError (Bool × String) :=
  if resp.statusCode ≠ 200 then
    .error (handleHTTPError decodeMsg resp.toHTTPResponse)
  else
    let appID := resp.appID.getD ""
    let hasScopes := splitComma (resp.scopes.getD "")
    let found := hasScopes.foldl
      (fun acc s => acc + (wantedScopes.filter (fun w => w == trimStr s)).length) 0
    if found = wantedScopes.length then
      .ok (true, appID)
    else
      .ok (false, appID)

/-! ## Header injection (`AddHeader`, `AddHeaderFunc`) and URL construction -/

/-- The request as the header decorators see it: the URL's hostname and the
ordered header list (`Header.Add` appends). -/
structure Request where
  host : String
  headers : List (String × String)
deriving Repr, DecidableEq

/-- The request transformation of the decorator built by
`AddHeader(name, value)`: add the header unless the name folds to
`Authorization` and the hostname does not end in `.github.com`. -/
def addHeader (name value : String) (req : Request) : Request :=
  if !(eqFold name "Authorization") || hasSuffix req.host ".github.com" then
    { req with headers := req.headers ++ [(name, value)] }
  else
    req

/-- The request transformation of the decorator built by
`AddHeaderFunc(name, value)`: same guard, the value computed at send time. -/
def addHeaderFunc (name : String) (value : Unit → String) (req : Request) :
    Request :=
  if !(eqFold name "Authorization") || hasSuffix req.host ".github.com" then
    { req with headers := req.headers ++ [(name, value ())] }
  else
    req

/-- The URL `Client.REST` sends to: the `GITHUB_HOST` environment value `ghe`
(`""` when unset) selects between the default host and the versioned
sub-path on the override host. -/
def restURL (ghe : String) (p : String) : String :=
  if ghe ≠ "" then "https://" ++ ghe ++ "/api/v3/" ++ p
  else "https://api.github.com/" ++ p

/-- The URL `Client.GraphQL` posts to, by the same override rule. -/
def graphQLURL (ghe : String) : String :=
  if ghe ≠ "" then "https://" ++ ghe ++ "/api/graphql"
  else "https://api.github.com/graphql"

/-- Model of `req.URL.Hostname()` for the `https://`-schemed URLs this client builds
from a plain host: drop the 8 scheme characters, take up to the first `/`. -/
def urlHostname (u : String) : String :=
  String.mk ((u.data.drop 8).takeWhile (fun c => c != '/'))

/-- The request both `Client.REST` and `Client.GraphQL` build before handing
it to the decorated transport: `http.NewRequest(method, url, body)` followed
by `req.Header.Set("Content-Type", "application/json; charset=utf-8")`. -/
def newAPIRequest (u : String) : Request :=
  { host := urlHostname u,
    headers := [("Content-Type", "application/json; charset=utf-8")] }

/-! ## Helper lemmas -/

/-- Once `issuedScopesWarning` is set, every later round trip passes straight
through: the flag stays set and the callback is never invoked again. -/
lemma checkScopesRun_flagTrue (w : String) (cbE : Nat → Bool) :
    ∀ (rs : List RoundTripOutcome) (n : Nat),
      checkScopesRun w cbE rs true n = (true, n) := by
  intro rs
  induction rs with
  | nil => intro n; rfl
  | cons r rest ih =>
      intro n
      have hstep : checkScopesStep w (cbE n) true r = ⟨none, true, false⟩ := by
        unfold checkScopesStep
        simp
      simp [checkScopesRun, hstep, ih]

/-- A non-qualifying round trip leaves the decorator state untouched and does
not invoke the callback, whatever the callback would have returned. -/
lemma checkScopesStep_not_qualifies (w : String) (c : Bool)
    (r : RoundTripOutcome) (h : qualifies w r = false) :
    checkScopesStep w c false r = ⟨none, false, false⟩ := by
  unfold qualifies at h
  unfold checkScopesStep
  cases hE : r.isErr with
  | true => simp [hE]
  | false =>
      cases hS : decide (299 < r.status) with
      | true => simp [hE, hS]
      | false =>
          cases hA : r.appID with
          | none => simp [hA]
          | some a =>
              have hsat : scopesSatisfy w (r.scopes.getD "") = true := by
                simp [hE, hS, hA] at h
                exact h
              simp [hE, hS, hA, hsat]

/-- A qualifying round trip seen with the flag still unset invokes the
callback with the app identifier and, the callback succeeding, sets the
flag. -/
lemma checkScopesStep_qualifies (w : String) (r : RoundTripOutcome)
    (h : qualifies w r = true) :
    checkScopesStep w false false r = ⟨some (r.appID.getD ""), true, false⟩ := by
  unfold qualifies at h
  obtain ⟨⟨⟨hE, hS⟩, hA⟩, hsat⟩ := by simpa [Bool.and_eq_true] using h
  unfold checkScopesStep
  cases hA' : r.appID with
  | none => rw [hA'] at hA; simp at hA
  | some a => simp [hE, hA', hsat, show ¬(299 < r.status) by omega]

/-- With the flag initially unset and a callback that never fails, a run
invokes the callback once when some round trip qualifies and never
otherwise, and the final flag records exactly that. -/
lemma checkScopesRun_false (w : String) :
    ∀ (rs : List RoundTripOutcome) (n : Nat),
      checkScopesRun w (fun _ => false) rs false n =
        (rs.any (qualifies w),
         n + if rs.any (qualifies w) then 1 else 0) := by
  intro rs
  induction rs with
  | nil => intro n; simp [checkScopesRun]
  | cons r rest ih =>
      intro n
      by_cases hq : qualifies w r = true
      · simp [checkScopesRun, checkScopesStep_qualifies w r hq, hq,
          checkScopesRun_flagTrue]
      · have hq' : qualifies w r = false := by simpa using hq
        simp [checkScopesRun, checkScopesStep_not_qualifies w false r hq', hq', ih]

/-- Equality test `==` on strings is symmetric. -/
lemma strBeq_comm (a b : String) : (a == b) = (b == a) := by
  by_cases h : a = b
  · simp [h]
  · simp [h, Ne.symm h]

/-- The inner candidate scan of `CheckScopes` on one token, in the order the
specification phrases it. -/
lemma candidates_any (w s : String) :
    ((wantedCandidates w).any fun c => c == trimStr s)
      = (trimStr s == w
          || ("read:".data.isPrefixOf w.data
              && trimStr s == "admin:" ++ w.drop 5)) := by
  unfold wantedCandidates
  cases hp : "read:".data.isPrefixOf w.data with
  | true =>
      simp [strBeq_comm w (trimStr s), strBeq_comm ("admin:" ++ w.drop 5) (trimStr s)]
  | false =>
      simp [strBeq_comm w (trimStr s)]

/-- The double loop of `CheckScopes` over tokens and candidates, in the order
the specification phrases it: some trimmed token equals the wanted scope or
its `admin:` analog when the wanted scope is `read:`-prefixed. -/
lemma scopesSatisfy_eq (w h : String) :
    scopesSatisfy w h = (splitComma h).any fun s =>
      trimStr s == w
        || ("read:".data.isPrefixOf w.data
            && trimStr s == "admin:" ++ w.drop 5) := by
  unfold scopesSatisfy
  simp only [candidates_any]

/-- Dropping the scheme and reading up to the first `/` recovers a
slash-free host. -/
lemma takeWhile_host (l t : List Char) (hplain : ∀ c ∈ l, c ≠ '/') :
    (l ++ '/' :: t).takeWhile (fun c => c != '/') = l := by
  induction l with
  | nil => rfl
  | cons a as ih =>
      have ha : (a != '/') = true := by
        simpa using hplain a (by simp)
      rw [List.cons_append,
        List.takeWhile_cons_of_pos (p := fun c => c != '/') ha,
        ih (fun c hc => hplain c (by simp [hc]))]

/-- Applying `urlHostname` to a URL of the shape `https://host/...` with a slash-free
host returns that host. -/
lemma urlHostname_of_data (u host : String) (t : List Char)
    (hu : u.data = "https://".data ++ (host.data ++ '/' :: t))
    (hplain : ∀ c ∈ host.data, c ≠ '/') :
    urlHostname u = host := by
  unfold urlHostname
  rw [hu]
  rw [show ("https://".data ++ (host.data ++ '/' :: t)).drop 8
        = host.data ++ '/' :: t from rfl]
  rw [takeWhile_host host.data t hplain]

/-- The URL `Client.REST` builds under a host override, in scheme/host/path
shape. -/
lemma restURL_data (ghe p : String) (hne : ghe ≠ "") :
    (restURL ghe p).data
      = "https://".data ++ (ghe.data ++ '/' :: ("api/v3/" ++ p).data) := by
  unfold restURL
  rw [if_pos hne]
  simp only [String.data_append, List.append_assoc]
  rfl

/-- The URL `Client.GraphQL` builds under a host override, in
scheme/host/path shape. -/
lemma graphQLURL_data (ghe : String) (hne : ghe ≠ "") :
    (graphQLURL ghe).data
      = "https://".data ++ (ghe.data ++ '/' :: "api/graphql".data) := by
  unfold graphQLURL
  rw [if_pos hne]
  simp only [String.data_append, List.append_assoc]

/-- The default URL `Client.REST` builds, in scheme/host/path shape. -/
lemma restURL_default_data (p : String) :
    (restURL "" p).data
      = "https://".data ++ ("api.github.com".data ++ '/' :: p.data) := by
  unfold restURL
  rw [if_neg (by simp)]
  simp only [String.data_append]
  rfl

/-- The default URL `Client.GraphQL` builds, in scheme/host/path shape. -/
lemma graphQLURL_default_data :
    (graphQLURL "").data
      = "https://".data ++ ("api.github.com".data ++ '/' :: "graphql".data) := by
  rfl

/-- The `AddHeader` decorator forwards the request unchanged when the header
name folds to `Authorization` and the host is not under `.github.com`. -/
lemma addHeader_auth_skip (name value : String) (req : Request)
    (hname : eqFold name "Authorization" = true)
    (hhost : hasSuffix req.host ".github.com" = false) :
    addHeader name value req = req := by
  unfold addHeader
  rw [hname, hhost]
  rfl

/-- Same for the `AddHeaderFunc` decorator. -/
lemma addHeaderFunc_auth_skip (name : String) (vf : Unit → String)
    (req : Request)
    (hname : eqFold name "Authorization" = true)
    (hhost : hasSuffix req.host ".github.com" = false) :
    addHeaderFunc name vf req = req := by
  unfold addHeaderFunc
  rw [hname, hhost]
  rfl

/-! ## The claims -/

/-- The property the specification ascribes to `HasScopes`, stated from the
spec's words for comparison with the source's behavior: every requested
scope, or its `admin:` analog for a `read:`-prefixed request, appears (after
trimming whitespace) among the comma-separated granted tokens. -/
def hasScopesSpecProperty (wantedScopes : List String)
    (scopesHeader : String) : Bool :=
  wantedScopes.all fun w =>
    (splitComma scopesHeader).any fun s =>
      (wantedCandidates w).any fun c => c == trimStr s

/-- C1 fails as stated: on a 200 response whose granted-scopes header is
`admin:org`, the request for `read:org` is satisfied under the claim's
wording (the `admin:` analog appears), yet `HasScopes` reports `false` —
the `admin:` analog is honoured only by `CheckScopes`, not by
`HasScopes`. -/
theorem C1_counterexample :
    hasScopesSpecProperty ["read:org"] "admin:org" = true ∧
    HasScopes (fun _ => none) ["read:org"]
      ⟨⟨200, "https://api.github.com/user", .ok "body"⟩,
        some "app1", some "admin:org"⟩ = .ok (false, "app1") := by
  exact ⟨by decide, rfl⟩

/-- C1 amended: on a 200 response, `HasScopes` returns no error, reports the
app identifier from the header (`""` when absent), and reports `true`
exactly when the number of pairs of a comma-separated granted token and a
wanted scope equal to its trimmed form equals the number of wanted scopes;
no `admin:` analog is considered. -/
theorem C1_amended (decodeMsg : String → Option String)
    (wantedScopes : List String) (resp : IdentityResponse)
    (h : resp.statusCode = 200) :
    HasScopes decodeMsg wantedScopes resp =
      .ok (decide ((splitComma (resp.scopes.getD "")).foldl
            (fun acc s => acc + (wantedScopes.filter
              (fun w => w == trimStr s)).length) 0
          = wantedScopes.length), resp.appID.getD "") := by
  unfold HasScopes
  rw [if_neg (by simp [h])]
  by_cases hf : (splitComma (resp.scopes.getD "")).foldl
      (fun acc s => acc + (wantedScopes.filter
        (fun w => w == trimStr s)).length) 0 = wantedScopes.length
  · rw [if_pos hf]
    simp [hf]
  · rw [if_neg hf]
    simp [hf]

/-- C1 witness: a 200 response granting ` repo , gist` satisfies the single
wanted scope `repo` after trimming. -/
theorem C1_amended_witness :
    HasScopes (fun _ => none) ["repo"]
      ⟨⟨200, "https://api.github.com/user", .ok "body"⟩,
        some "app1", some " repo , gist"⟩ = .ok (true, "app1") :=
  (C1_amended (fun _ => none) ["repo"]
    ⟨⟨200, "https://api.github.com/user", .ok "body"⟩,
      some "app1", some " repo , gist"⟩ rfl).trans rfl

/-- C2 fails as stated: when the callback itself returns an error (e.g. an
aborted reauthentication), `issuedScopesWarning` is not set, and the callback
is invoked again on the next qualifying response — here twice across two
qualifying responses, with the flag still `false` at the end. -/
theorem C2_counterexample :
    checkScopesRun "repo" (fun _ => true)
      [⟨false, 200, some "app1", none⟩, ⟨false, 200, some "app1", none⟩]
      false 0 = (false, 2) := by
  decide

/-- C2 amended: the flag is set only by a successful callback.  With a
callback that never fails, a run from the unset flag invokes the callback
exactly once when some response qualifies (successful status, app-id header
present, scope unsatisfied) and never otherwise; once the flag is set, no run
ever invokes the callback again or resets the flag, whatever the callback
would return; and a qualifying response reaching the unset flag hands the
callback the app identifier. -/
theorem C2_amended (wantedScope : String) (cbErrAt : Nat → Bool)
    (rs : List RoundTripOutcome) (r : RoundTripOutcome) :
    checkScopesRun wantedScope (fun _ => false) rs false 0
      = (rs.any (qualifies wantedScope),
         if rs.any (qualifies wantedScope) then 1 else 0) ∧
    (∀ n, checkScopesRun wantedScope cbErrAt rs true n = (true, n)) ∧
    (qualifies wantedScope r = true →
      checkScopesStep wantedScope false false r
        = ⟨some (r.appID.getD ""), true, false⟩) := by
  refine ⟨?_, fun n => checkScopesRun_flagTrue wantedScope cbErrAt rs n,
    fun hq => checkScopesStep_qualifies wantedScope r hq⟩
  have h := checkScopesRun_false wantedScope rs 0
  simpa using h

/-- C2 witness: with a never-failing callback, two qualifying responses
produce exactly one invocation; the qualifying response hands over the app
identifier. -/
theorem C2_amended_witness :
    checkScopesRun "repo" (fun _ => false)
      [⟨false, 200, some "app1", none⟩, ⟨false, 200, some "app1", none⟩]
      false 0 = (true, 1) ∧
    checkScopesStep "repo" false false ⟨false, 200, some "app1", none⟩
      = ⟨some "app1", true, false⟩ := by
  have h := C2_amended "repo" (fun _ => true)
    [⟨false, 200, some "app1", none⟩, ⟨false, 200, some "app1", none⟩]
    ⟨false, 200, some "app1", none⟩
  exact ⟨h.1.trans (by decide), (h.2.2 (by decide)).trans (by decide)⟩

/-- C3 confirmed: when the header name folds to `Authorization` and the
target hostname does not end in `.github.com`, neither the static
(`AddHeader`) nor the dynamic (`AddHeaderFunc`) decorator injects the
header: a request carrying no authorization header is forwarded carrying
none, whatever the value. -/
theorem C3_no_auth_leak (name value : String) (vf : Unit → String)
    (req : Request)
    (hname : eqFold name "Authorization" = true)
    (hhost : hasSuffix req.host ".github.com" = false)
    (hreq : ∀ q ∈ req.headers, eqFold q.1 "Authorization" = false) :
    (∀ q ∈ (addHeader name value req).headers,
      eqFold q.1 "Authorization" = false) ∧
    (∀ q ∈ (addHeaderFunc name vf req).headers,
      eqFold q.1 "Authorization" = false) := by
  rw [addHeader_auth_skip name value req hname hhost,
    addHeaderFunc_auth_skip name vf req hname hhost]
  exact ⟨hreq, hreq⟩

/-- C3 witness: a request to `example.com` carrying only a product header is
forwarded with its one header still not an authorization header. -/
theorem C3_no_auth_leak_witness :
    eqFold "User-Agent" "Authorization" = false :=
  (C3_no_auth_leak "Authorization" "token secret" (fun _ => "token secret")
    ⟨"example.com", [("User-Agent", "GitHub CLI")]⟩
    (by decide) (by decide) (by decide)).1
    ("User-Agent", "GitHub CLI") (by decide)

/-- C4 fails as stated: when reading the response body fails, the source
stores the read error's text in `Message` (`httpError.Message = err.Error()`),
not the empty string — for both `REST` and the GraphQL response handler. -/
theorem C4_counterexample :
    REST some (fun _ => none)
      ⟨404, "https://api.github.com/missing", .error "read failed"⟩ none
      = (none, some (.httpError
          ⟨404, "https://api.github.com/missing", "read failed"⟩)) ∧
    handleResponse (fun _ => none) (fun _ => none)
      ⟨404, "https://api.github.com/graphql", .error "read failed"⟩ none
      = (none, some (.httpError
          ⟨404, "https://api.github.com/graphql", "read failed"⟩)) :=
  ⟨rfl, rfl⟩

/-- C4 amended: on a non-2xx status, `REST` and `GraphQL` both return an
`HTTPError` whose status code is the response status and whose message is the
decoded `message` field when the body was read and decoded, the empty string
when the body was read but not decodable, and the read error's text when the
body could not be read. -/
theorem C4_amended (decodeEnv : String → Option GraphQLEnvelope)
    (decodeBody decodeMsg : String → Option String)
    (resp : HTTPResponse) (out : Option String)
    (h : ¬(200 ≤ resp.statusCode ∧ resp.statusCode < 300)) :
    REST decodeBody decodeMsg resp out
      = (out, some (.httpError (handleHTTPError decodeMsg resp))) ∧
    handleResponse decodeEnv decodeMsg resp out
      = (out, some (.httpError (handleHTTPError decodeMsg resp))) ∧
    (handleHTTPError decodeMsg resp).statusCode = resp.statusCode ∧
    (handleHTTPError decodeMsg resp).message
      = (match resp.bodyRead with
         | .error e => e
         | .ok body => (decodeMsg body).getD "") := by
  refine ⟨?_, ?_, ?_, ?_⟩
  · unfold REST
    rw [if_neg h]
  · unfold handleResponse
    rw [if_neg h]
  · unfold handleHTTPError
    cases hb : resp.bodyRead with
    | error e => rfl
    | ok b => rfl
  · unfold handleHTTPError
    cases hb : resp.bodyRead with
    | error e => rfl
    | ok b => rfl

/-- C4 witness: a 404 whose body decodes to `message = "Not Found"` yields
that message with the response status. -/
theorem C4_amended_witness :
    REST some (fun _ => some "Not Found")
      ⟨404, "https://api.github.com/missing", .ok "body"⟩ none
      = (none, some (.httpError
          ⟨404, "https://api.github.com/missing", "Not Found"⟩)) := by
  have h := C4_amended (fun _ => none) some (fun _ => some "Not Found")
    ⟨404, "https://api.github.com/missing", .ok "body"⟩ none (by decide)
  exact h.1.trans rfl

/-- C5 confirmed: a 2xx response whose decoded envelope carries a non-empty
error list makes the GraphQL handler return a `GraphQLErrorResponse` holding
exactly those errors in order, and its display form is the newline-joined
message list behind the `GraphQL error: ` marker. -/
theorem C5_graphql_error_list (decodeEnv : String → Option GraphQLEnvelope)
    (decodeMsg : String → Option String) (resp : HTTPResponse)
    (out : Option String) (body : String) (env : GraphQLEnvelope)
    (hst : 200 ≤ resp.statusCode ∧ resp.statusCode < 300)
    (hbody : resp.bodyRead = .ok body)
    (hdec : decodeEnv body = some env)
    (herr : env.errors ≠ []) :
    (handleResponse decodeEnv decodeMsg resp out).2
      = some (.graphQLErrors ⟨env.errors⟩) ∧
    GraphQLErrorResponse.errorString ⟨env.errors⟩
      = "GraphQL error: "
        ++ String.intercalate "\n" (env.errors.map (·.message)) := by
  constructor
  · unfold handleResponse
    rw [if_pos hst, hbody]
    simp [hdec, List.length_pos.mpr herr]
  · rfl

/-- C5 witness: two errors produce the two messages newline-joined after the
marker. -/
theorem C5_graphql_error_list_witness :
    (handleResponse
        (fun _ => some ⟨none,
          [⟨"NOT_FOUND", ["repository", "issue"], "Could not resolve"⟩,
           ⟨"FORBIDDEN", [], "second failure"⟩]⟩)
        (fun _ => none)
        ⟨200, "https://api.github.com/graphql", .ok "body"⟩ none).2
      = some (.graphQLErrors
          ⟨[⟨"NOT_FOUND", ["repository", "issue"], "Could not resolve"⟩,
            ⟨"FORBIDDEN", [], "second failure"⟩]⟩) ∧
    GraphQLErrorResponse.errorString
        ⟨[⟨"NOT_FOUND", ["repository", "issue"], "Could not resolve"⟩,
          ⟨"FORBIDDEN", [], "second failure"⟩]⟩
      = "GraphQL error: Could not resolve\nsecond failure" := by
  have h := C5_graphql_error_list
    (fun _ => some ⟨none,
      [⟨"NOT_FOUND", ["repository", "issue"], "Could not resolve"⟩,
       ⟨"FORBIDDEN", [], "second failure"⟩]⟩)
    (fun _ => none)
    ⟨200, "https://api.github.com/graphql", .ok "body"⟩ none "body"
    ⟨none, [⟨"NOT_FOUND", ["repository", "issue"], "Could not resolve"⟩,
      ⟨"FORBIDDEN", [], "second failure"⟩]⟩
    (by decide) rfl rfl (by decide)
  exact ⟨h.1, h.2.trans (by decide)⟩

/-- C6 fails as stated: on a 200 response carrying both usable data and one
error, the handler returns the GraphQL error *and* the caller's output
target, initially empty, ends up holding the partial data — the envelope is
unmarshalled through the caller's pointer before the error check. -/
theorem C6_counterexample :
    handleResponse
      (fun _ => some ⟨some "partialData", [⟨"NOT_FOUND", [], "nope"⟩]⟩)
      (fun _ => none)
      ⟨200, "https://api.github.com/graphql", .ok "body"⟩ none
      = (some "partialData",
         some (.graphQLErrors ⟨[⟨"NOT_FOUND", [], "nope"⟩]⟩)) := rfl

/-- C6 amended: on a 2xx response whose envelope decodes with both a data
payload and a non-empty error list, the handler returns the
`GraphQLErrorResponse` *and* the caller's output target is populated with
the partial data; only the returned value, not the written target, withholds
the partial result. -/
theorem C6_amended (decodeEnv : String → Option GraphQLEnvelope)
    (decodeMsg : String → Option String) (resp : HTTPResponse)
    (out : Option String) (body d : String) (env : GraphQLEnvelope)
    (hst : 200 ≤ resp.statusCode ∧ resp.statusCode < 300)
    (hbody : resp.bodyRead = .ok body)
    (hdec : decodeEnv body = some env)
    (herr : env.errors ≠ [])
    (hdata : env.data? = some d) :
    handleResponse decodeEnv decodeMsg resp out
      = (some d, some (.graphQLErrors ⟨env.errors⟩)) := by
  unfold handleResponse
  rw [if_pos hst, hbody]
  simp [hdec, hdata, List.length_pos.mpr herr]

/-- C6 witness: a 201 response with partial data `viewer` and one error
overwrites the target and returns the error. -/
theorem C6_amended_witness :
    handleResponse
      (fun _ => some ⟨some "viewer", [⟨"FORBIDDEN", [], "denied"⟩]⟩)
      (fun _ => none)
      ⟨201, "https://api.github.com/graphql", .ok "raw"⟩ (some "old")
      = (some "viewer",
         some (.graphQLErrors ⟨[⟨"FORBIDDEN", [], "denied"⟩]⟩)) :=
  C6_amended
    (fun _ => some ⟨some "viewer", [⟨"FORBIDDEN", [], "denied"⟩]⟩)
    (fun _ => none)
    ⟨201, "https://api.github.com/graphql", .ok "raw"⟩ (some "old")
    "raw" "viewer" ⟨some "viewer", [⟨"FORBIDDEN", [], "denied"⟩]⟩
    (by decide) rfl rfl (by decide) rfl

/-- C7 confirmed: before the flag is set, a successful response (status at
most 299) without the app-id header passes through untouched with no
callback; with the header present, the callback is invoked — receiving the
app identifier — exactly when no trimmed comma-separated granted token
equals the wanted scope or, for a `read:`-prefixed wanted scope, its
`admin:` equivalent. -/
theorem C7_checkScopes_step (wantedScope : String) (cbErr : Bool)
    (r : RoundTripOutcome)
    (hErr : r.isErr = false) (hst : r.status ≤ 299) :
    (r.appID = none →
      checkScopesStep wantedScope cbErr false r = ⟨none, false, false⟩) ∧
    (∀ a, r.appID = some a →
      (checkScopesStep wantedScope cbErr false r).cbArg
        = if (splitComma (r.scopes.getD "")).any
              (fun s => trimStr s == wantedScope
                || ("read:".data.isPrefixOf wantedScope.data
                    && trimStr s == "admin:" ++ wantedScope.drop 5))
          then none else some a) := by
  constructor
  · intro hA
    unfold checkScopesStep
    simp [hA, hErr, show ¬(299 < r.status) by omega]
  · intro a hA
    rw [← scopesSatisfy_eq]
    unfold checkScopesStep
    cases hsat : scopesSatisfy wantedScope (r.scopes.getD "") with
    | true => simp [hErr, hA, hsat, show ¬(299 < r.status) by omega]
    | false =>
        cases cbErr with
        | true => simp [hErr, hA, hsat, show ¬(299 < r.status) by omega]
        | false => simp [hErr, hA, hsat, show ¬(299 < r.status) by omega]

/-- C7 witness: granted `repo, gist` does not satisfy `read:org`, so the
callback receives the app identifier; a response without the app-id header
passes through untouched. -/
theorem C7_checkScopes_step_witness :
    (checkScopesStep "read:org" false false
      ⟨false, 200, some "app1", some "repo, gist"⟩).cbArg = some "app1" ∧
    checkScopesStep "read:org" false false ⟨false, 200, none, some "x"⟩
      = ⟨none, false, false⟩ := by
  have h := C7_checkScopes_step "read:org" false
    ⟨false, 200, some "app1", some "repo, gist"⟩ rfl (by decide)
  have h2 := C7_checkScopes_step "read:org" false
    ⟨false, 200, none, some "x"⟩ rfl (by decide)
  exact ⟨(h.2 "app1" rfl).trans (by decide), h2.1 rfl⟩

/-- C8 confirmed: `REST` returns success with the target untouched on 204,
unmarshals the full body into the target on any other 2xx (when body read and
unmarshal succeed), and fails with the `HTTPError` classification on any
status outside the 2xx range. -/
theorem C8_rest_dispatch (decodeBody decodeMsg : String → Option String)
    (resp : HTTPResponse) (out : Option String) :
    (resp.statusCode = 204 →
      REST decodeBody decodeMsg resp out = (out, none)) ∧
    (∀ body v, 200 ≤ resp.statusCode → resp.statusCode < 300 →
      resp.statusCode ≠ 204 → resp.bodyRead = .ok body →
      decodeBody body = some v →
      REST decodeBody decodeMsg resp out = (some v, none)) ∧
    (¬(200 ≤ resp.statusCode ∧ resp.statusCode < 300) →
      REST decodeBody decodeMsg resp out
        = (out, some (.httpError (handleHTTPError decodeMsg resp)))) := by
  refine ⟨?_, ?_, ?_⟩
  · intro h204
    unfold REST
    rw [if_pos (by omega), if_pos h204]
  · intro body v h1 h2 h3 hbody hdec
    unfold REST
    rw [if_pos ⟨h1, h2⟩, if_neg h3, hbody]
    simp [hdec]
  · intro h
    unfold REST
    rw [if_neg h]

/-- C8 witness: 204 leaves the target as it was; 200 with a decodable body
replaces it; 404 fails with the `HTTPError`. -/
theorem C8_rest_dispatch_witness :
    REST some (fun _ => none)
      ⟨204, "https://api.github.com/gists/1", .ok ""⟩ (some "orig")
      = (some "orig", none) ∧
    REST some (fun _ => none)
      ⟨200, "https://api.github.com/gists/1", .ok "payload"⟩ none
      = (some "payload", none) ∧
    REST some (fun _ => none)
      ⟨404, "https://api.github.com/gists/1", .ok "oops"⟩ none
      = (none, some (.httpError ⟨404, "https://api.github.com/gists/1", ""⟩)) := by
  refine ⟨?_, ?_, ?_⟩
  · exact (C8_rest_dispatch some (fun _ => none)
      ⟨204, "https://api.github.com/gists/1", .ok ""⟩ (some "orig")).1 rfl
  · exact (C8_rest_dispatch some (fun _ => none)
      ⟨200, "https://api.github.com/gists/1", .ok "payload"⟩ none).2.1
      "payload" "payload" (by decide) (by decide) (by decide) rfl rfl
  · exact ((C8_rest_dispatch some (fun _ => none)
      ⟨404, "https://api.github.com/gists/1", .ok "oops"⟩ none).2.2
      (by decide)).trans rfl

/-- C9 confirmed: with the `GITHUB_HOST` override unset both clients target
the default host `api.github.com`; with it set to a plain host `ghe`, `REST`
builds `https://ghe/api/v3/<path>` and `GraphQL` builds
`https://ghe/api/graphql`, so both target the override host. -/
theorem C9_host_selection (ghe p : String) (hne : ghe ≠ "")
    (hplain : ∀ c ∈ ghe.data, c ≠ '/') :
    urlHostname (restURL "" p) = "api.github.com" ∧
    urlHostname (graphQLURL "") = "api.github.com" ∧
    restURL ghe p = "https://" ++ ghe ++ "/api/v3/" ++ p ∧
    graphQLURL ghe = "https://" ++ ghe ++ "/api/graphql" ∧
    urlHostname (restURL ghe p) = ghe ∧
    urlHostname (graphQLURL ghe) = ghe := by
  refine ⟨?_, ?_, ?_, ?_, ?_, ?_⟩
  · exact urlHostname_of_data _ "api.github.com" p.data
      (restURL_default_data p) (by decide)
  · exact urlHostname_of_data _ "api.github.com" "graphql".data
      graphQLURL_default_data (by decide)
  · unfold restURL
    rw [if_pos hne]
  · unfold graphQLURL
    rw [if_pos hne]
  · exact urlHostname_of_data _ ghe _ (restURL_data ghe p hne) hplain
  · exact urlHostname_of_data _ ghe _ (graphQLURL_data ghe hne) hplain

/-- C9 witness: a concrete override host and path produce the versioned REST
sub-path on that host; the unset override targets the default host. -/
theorem C9_host_selection_witness :
    restURL "ghe.example.com" "repos/o/r"
      = "https://ghe.example.com/api/v3/repos/o/r" ∧
    urlHostname (restURL "ghe.example.com" "repos/o/r") = "ghe.example.com" ∧
    urlHostname (graphQLURL "ghe.example.com") = "ghe.example.com" ∧
    urlHostname (graphQLURL "") = "api.github.com" := by
  have h := C9_host_selection "ghe.example.com" "repos/o/r" (by decide)
    (by decide)
  exact ⟨h.2.2.1.trans (by decide), h.2.2.2.2.1, h.2.2.2.2.2, h.2.1⟩

/-- C10 confirmed: with `GITHUB_HOST` set to a plain host not ending in
`.github.com`, the requests `REST` and `GraphQL` build target that host, and
neither the static nor the dynamic authorization decorator attaches any
authorization header to them. -/
theorem C10_no_credential_to_override_host (ghe tok p : String)
    (vf : Unit → String) (hne : ghe ≠ "")
    (hplain : ∀ c ∈ ghe.data, c ≠ '/')
    (hsuffix : hasSuffix ghe ".github.com" = false) :
    (addHeader "Authorization" tok (newAPIRequest (restURL ghe p))).host
      = ghe ∧
    (∀ q ∈ (addHeader "Authorization" tok
        (newAPIRequest (restURL ghe p))).headers,
      eqFold q.1 "Authorization" = false) ∧
    (addHeaderFunc "Authorization" vf
        (newAPIRequest (graphQLURL ghe))).host = ghe ∧
    (∀ q ∈ (addHeaderFunc "Authorization" vf
        (newAPIRequest (graphQLURL ghe))).headers,
      eqFold q.1 "Authorization" = false) := by
  have hrhost : (newAPIRequest (restURL ghe p)).host = ghe :=
    urlHostname_of_data _ ghe _ (restURL_data ghe p hne) hplain
  have hghost : (newAPIRequest (graphQLURL ghe)).host = ghe :=
    urlHostname_of_data _ ghe _ (graphQLURL_data ghe hne) hplain
  have hs1 : hasSuffix (newAPIRequest (restURL ghe p)).host ".github.com"
      = false := by
    rw [hrhost]
    exact hsuffix
  have hs2 : hasSuffix (newAPIRequest (graphQLURL ghe)).host ".github.com"
      = false := by
    rw [hghost]
    exact hsuffix
  have e1 := addHeader_auth_skip "Authorization" tok
    (newAPIRequest (restURL ghe p)) (by decide) hs1
  have e2 := addHeaderFunc_auth_skip "Authorization" vf
    (newAPIRequest (graphQLURL ghe)) (by decide) hs2
  refine ⟨?_, ?_, ?_, ?_⟩
  · rw [e1]
    exact hrhost
  · rw [e1]
    intro q hq
    have hq' : q = ("Content-Type", "application/json; charset=utf-8") := by
      simpa [newAPIRequest] using hq
    rw [hq']
    decide
  · rw [e2]
    exact hghost
  · rw [e2]
    intro q hq
    have hq' : q = ("Content-Type", "application/json; charset=utf-8") := by
      simpa [newAPIRequest] using hq
    rw [hq']
    decide

/-- C10 witness: with the override host `ghe.example.com`, the decorated REST
request targets that host and carries no authorization header. -/
theorem C10_no_credential_to_override_host_witness :
    (addHeader "Authorization" "token secret"
      (newAPIRequest (restURL "ghe.example.com" "repos/o/r"))).host
      = "ghe.example.com" ∧
    ∀ q ∈ (addHeader "Authorization" "token secret"
      (newAPIRequest (restURL "ghe.example.com" "repos/o/r"))).headers,
      eqFold q.1 "Authorization" = false := by
  have h := C10_no_credential_to_override_host "ghe.example.com"
    "token secret" "repos/o/r" (fun _ => "token secret")
    (by decide) (by decide) (by decide)
  exact ⟨h.1, h.2.1⟩

end GhApi
